import Mathlib

/-!
Verification development for the EM / SQUAREM parameter-estimation core of
admixfrog (`admixfrog/slug/em.py`).

The numeric type is a parameter `α` (a linear ordered field); the parameter
update layer is stated polymorphically and instantiated at `ℚ` for concrete
evaluations, while the SQUAREM layer, which takes genuine square roots
(`np.sqrt`), is instantiated at `ℝ`.

IEEE-float non-finite values (NaN from `0/0`, mean of an empty slice, ...)
have no counterpart in a field, so the places where the Python code can
produce a NaN are modelled explicitly with `Option` (`none` = non-finite),
and the single place where the code raises (`update_ftau_numeric` with
`update_F=False`) is modelled with an `Option` result (`none` = exception).
-/

namespace Admixfrog

variable {α : Type} [LinearOrderedField α]

/-- Modelled from the spec (§3 Observation Data): the `SlugData` record that
`em.py` consumes.  The class itself lives outside `src/`; its fields are
exactly the ones `em.py` reads.  `READS` holds the per-read ref/alt
observation (used as a boolean mask by `update_eb`), `FLIPPED_READS` the
orientation flag. -/
structure SlugData (α : Type) where
  READS : List Bool
  FLIPPED_READS : List Bool
  READ2SNP : List ℕ
  READ2RG : List ℕ
  SNP2SFS : List ℕ
  psi : List α
  haploid_snps : Option (List ℕ)
  n_snps : ℕ
  n_reads : ℕ
  n_sfs : ℕ
  n_rgs : ℕ
deriving DecidableEq

/-- Modelled from the spec (§3 Parameter Vector): the `SlugPars` object
mutated by `em.py`.  Fields that the Python code can set to NaN (`cont`
from an empty read-group mean, `e`/`b` from the unguarded single-error-rate
division) are `Option`-valued, `none` standing for a non-finite float. -/
structure SlugPars (α : Type) where
  F : List α
  tau : List α
  cont : List (Option α)
  e : Option α
  b : Option α
  ll : α
  prev_ll : α
  prev_F : List α
  prev_tau : List α
  prev_cont : List (Option α)
  prev_e : Option α
  prev_b : Option α
deriving DecidableEq

/-- Modelled from the spec (§3): `delta_ll`, the likelihood improvement of the
last accepted step, read by `em`'s stopping rule. -/
def SlugPars.delta_ll (p : SlugPars α) : α := p.ll - p.prev_ll

/-- Modelled from the spec (§3): flattening of the Parameter Vector to a
single ordered numeric vector (`pars.pars`), used for SQUAREM's vector
arithmetic.  Blocks in order: `F`, `tau`, `cont`, `e`, `b`. -/
def SlugPars.flat (p : SlugPars α) : List (Option α) :=
  p.F.map some ++ p.tau.map some ++ p.cont ++ [p.e, p.b]

/-- Modelled from the spec (§3): writing a flattened vector back into the
blocks (`pars_sq.pars[:] = ...`).  The `F`/`tau` slots are always finite in
every flow of `em.py` (their updates are total), so the `Option` there is
discharged with a default that is never used. -/
def SlugPars.setFlat (p : SlugPars α) (v : List (Option α)) : SlugPars α :=
  let nF := p.F.length
  let nT := p.tau.length
  let nC := p.cont.length
  { p with
    F := ((v.take nF).map (fun o => o.getD 0))
    tau := (((v.drop nF).take nT).map (fun o => o.getD 0))
    cont := ((v.drop (nF + nT)).take nC)
    e := ((v.drop (nF + nT + nC)).getD 0 none)
    b := ((v.drop (nF + nT + nC)).getD 1 none) }

/-- Modelled from the spec (§3): vector subtraction of flattened parameter
vectors (`pars1 - pars`), with NaN (`none`) propagation as in IEEE floats. -/
def vsub (x y : List (Option α)) : List (Option α) :=
  List.zipWith
    (fun a b =>
      match a, b with
      | some u, some v => some (u - v)
      | _, _ => none)
    x y

/-- Modelled from the spec (§6 Run Configuration): the controller object:
per-block update switches, iteration budget, tolerances and SQUAREM step
bounds, and the `copy_pars` aliasing flag. -/
structure Controller (α : Type) where
  update_ftau : Bool
  update_cont : Bool
  update_eb : Bool
  update_bias : Bool
  update_F : Bool
  do_ll : Bool
  copy_pars : Bool
  n_iter : ℕ
  param_tol : α
  ll_tol : α
  squarem_min : α
  squarem_max : α
  squarem_mstep : α
deriving DecidableEq

/-- Result record of the external bounded optimizer (`scipy.optimize.minimize`
with method L-BFGS-B): the point `x = (tau, F)` and a success flag. -/
structure MinimizeResult (α : Type) where
  x : α × α
  success : Bool
deriving DecidableEq

/-- Modelled from the spec (§6 External Interfaces): the Emission Model and
Posterior Engine functions that `em.py` imports from `.emissions`, plus the
external optimizer `scipy.optimize.minimize` and `np.log` used inside
`update_ftau_numeric`.  All are external collaborators; `em.py` only
composes them. -/
structure EmissionModel (α : Type) where
  fwd_p_g : SlugData α → SlugPars α → List (α × α × α)
  bwd_p_o_given_x : List Bool → List Bool → Option α → Option α → List (α × α)
  bwd_p_one_o_given_g :
    List (α × α) → List α → List (Option α) → List ℕ → List ℕ → ℕ → List (α × α × α)
  bwd_p_all_o_given_g : List (α × α × α) → List ℕ → ℕ → List (α × α × α)
  fwd_p_x_cont : List α → List ℕ → List α
  fwd_p_x_nocont : List (α × α × α) → List ℕ → List α
  fwd_p_x : List α → List α → List (Option α) → List ℕ → List (α × α)
  posterior_g : List (α × α × α) → List (α × α × α) → List (α × α × α)
  posterior_c : List (α × α) → List α → List α → List (Option α) → List ℕ → List α
  posterior_x : List (α × α) → List α → List α → List (Option α) → List ℕ → List (α × α)
  calc_full_ll : SlugData α → SlugPars α → α
  minimize : (α × α → α) → α × α → (α × α) × (α × α) → MinimizeResult α
  log : α → α

/-- Componentwise sum of a list of genotype-posterior rows
(`np.sum(post_g[mask], 0)` for a 3-column array). -/
def sum3 (l : List (α × α × α)) : α × α × α :=
  ((l.map (fun t => t.1)).sum, (l.map (fun t => t.2.1)).sum, (l.map (fun t => t.2.2)).sum)

/-- Row selection by a boolean mask followed by the column sums:
`np.sum(post_g[mask], 0)`. -/
def maskSum3 (rows : List (α × α × α)) (mask : List Bool) : α × α × α :=
  sum3 (((rows.zip mask).filter (fun t => t.2)).map (fun t => t.1))

/-- The boolean mask `data.SNP2SFS == k`. -/
def sfsMask (SNP2SFS : List ℕ) (k : ℕ) : List Bool :=
  SNP2SFS.map (fun s => s == k)

/-- The mask `ix1 = (SNP2SFS == k); ix1[haploid_snps] = False` of
`update_ftau`'s haploid exclusion. -/
def sfsMaskH (SNP2SFS : List ℕ) (hs : List ℕ) (k : ℕ) : List Bool :=
  SNP2SFS.enum.map (fun p => p.2 == k && !(hs.contains p.1))

/-- Aggregated posterior genotype totals `G0, G1, G2` of SFS category `k`
(`np.sum(post_g[data.SNP2SFS == k], 0)`, em.py line 112). -/
def catG (post_g : List (α × α × α)) (SNP2SFS : List ℕ) (k : ℕ) : α × α × α :=
  maskSum3 post_g (sfsMask SNP2SFS k)

/-- The closed-form `tau` update of `update_ftau` (em.py lines 115-118):
`(G1/2 + G2) / (G0+G1+G2)` when the denominator is positive, else `0`. -/
def tauFormula (G : α × α × α) : α :=
  if 0 < G.1 + G.2.1 + G.2.2 then (G.2.1 / 2 + G.2.2) / (G.1 + G.2.1 + G.2.2) else 0

/-- The literal `1e-300` of em.py line 132 (exact in a field). -/
def eps300 : α := 1 / 10 ^ 300

/-- The closed-form `F` update of `update_ftau` (em.py line 132):
`2*G0/(2*G0+G1+1e-300) - G1/(2*G2+G1+1e-300)`. -/
def Fformula (G : α × α × α) : α :=
  2 * G.1 / (2 * G.1 + G.2.1 + eps300) - G.2.1 / (2 * G.2.2 + G.2.1 + eps300)

/-- `np.clip(x, 0, 1)` on a scalar. -/
def clip01 (x : α) : α := min 1 (max 0 x)

/-- The haploid-exclusion totals used for the `F` update (em.py lines
120-130): with no haploid set configured the `tau` totals `G` are reused;
otherwise the mask `ix1` excludes haploid SNPs, and the totals are
recomputed over it unless it is empty. -/
def catGH (post_g : List (α × α × α)) (d : SlugData α) (k : ℕ) : α × α × α :=
  match d.haploid_snps with
  | none => catG post_g d.SNP2SFS k
  | some hs =>
    let m := sfsMaskH d.SNP2SFS hs k
    if m.all (fun b => !b) then catG post_g d.SNP2SFS k else maskSum3 post_g m

/-- One iteration `k` of the `for k in range(n_sfs)` loop of `update_ftau`
(em.py lines 111-133): set `tau[k]`, optionally set `F[k]`, then execute
`np.clip(F, 0, 1, out=F)`, which clips the whole `F` array each pass,
exactly as the source does inside the loop body. -/
def ftauStep (d : SlugData α) (post_g : List (α × α × α)) (update_F : Bool)
    (s : List α × List α) (k : ℕ) : List α × List α :=
  let G := catG post_g d.SNP2SFS k
  let tau2 := s.2.set k (tauFormula G)
  let F2 := if update_F then s.1.set k (Fformula (catGH post_g d k)) else s.1
  (F2.map clip01, tau2)

/-- Shallow embedding of `update_ftau` (em.py lines 80-135), the closed-form
SFS update.  `old_F`/`old_tau` are assumed to have length `n_sfs` (the
`tau[:] = old_tau` copy into `np.zeros(n_sfs)` requires it). -/
def update_ftau (old_F old_tau : List α) (d : SlugData α)
    (post_g : List (α × α × α)) (update_F : Bool) : List α × List α :=
  (List.range d.n_sfs).foldl (ftauStep d post_g update_F) (old_F, old_tau)

/-- The literal `1e-10` used for the optimizer bounds (em.py line 67) and for
the SQUAREM stabilization step (em.py line 243). -/
def eps10 : α := 1 / 10 ^ 10

/-- Shallow embedding of `update_ftau_numeric` (em.py lines 18-77), the
numerically-optimized SFS update.  `update_F=False` raises
(`raise NotImplemented`), modelled as `none`.  Per category the objective
`-(G0*log c0 + G1*log c1 + G2*log c2)` is handed to the external optimizer,
whose result is written back unconditionally (a failure is only logged).
The `prev = f(init)` evaluation of the source is kept (its value is
discarded; the NaN-guard `ValueError` inside `f` is a float artefact with no
field counterpart and is not modelled).

This is the inner objective `f(args)` of em.py lines 55-64: the negated
multinomial log-likelihood at `args = (tau, F)` for aggregated totals `G`,
using the external `np.log`. -/
def ftauLogLik (E : EmissionModel α) (G : α × α × α) (args : α × α) : α :=
  let c0 := args.2 * (1 - args.1) + (1 - args.2) * (1 - args.1) ^ 2
  let c1 := (1 - args.2) * 2 * args.1 * (1 - args.1)
  let c2 := args.2 * args.1 + (1 - args.2) * args.1 * args.1
  E.log c0 * G.1 + E.log c1 * G.2.1 + E.log c2 * G.2.2

/-- The objective handed to the optimizer is the negated log-likelihood
(`return -x`, em.py line 64). -/
def ftauObjective (E : EmissionModel α) (G : α × α × α) (args : α × α) : α :=
  -(ftauLogLik E G args)

/-- Shallow embedding of the loop body and result of `update_ftau_numeric`
(continued): per category the objective is handed to the optimizer and its
result written back unconditionally. -/
def update_ftau_numeric (E : EmissionModel α) (old_F old_tau : List α)
    (d : SlugData α) (post_g : List (α × α × α)) (update_F : Bool) :
    Option (List α × List α) :=
  if update_F = false then none
  else
    some ((List.range d.n_sfs).foldl
      (fun s k =>
        let G := catG post_g d.SNP2SFS k
        let f := ftauObjective E G
        let init := (s.2.getD k 0, s.1.getD k 0)
        let bounds := ((eps10, 1 - eps10), (eps10, 1 - eps10))
        let _prev := f init
        let OO := E.minimize f init bounds
        (s.1.set k OO.x.2, s.2.set k OO.x.1))
      (old_F, old_tau))

/-- The slice `post_c[READ2RG == r]` of em.py line 151. -/
def rgGroup (post_c : List α) (READ2RG : List ℕ) (r : ℕ) : List α :=
  ((post_c.zip READ2RG).filter (fun t => t.2 == r)).map (fun t => t.1)

/-- `np.mean(post_c[READ2RG == r])` of em.py line 151: the mean over the
group's reads; `np.mean` of an empty slice is NaN, modelled `none`. -/
def rgMean (post_c : List α) (READ2RG : List ℕ) (r : ℕ) : Option α :=
  let grp := rgGroup post_c READ2RG r
  if grp.length = 0 then none else some (grp.sum / (grp.length : α))

/-- Shallow embedding of `update_c` (em.py lines 138-153): per read-group the
mean of `post_c` over the group's reads. -/
def update_c (post_c : List α) (READ2RG : List ℕ) (n_rgs : ℕ) : List (Option α) :=
  (List.range n_rgs).map (rgMean post_c READ2RG)

/-- The masked column sums of `update_eb`: sum of column `c0` (`true` = column
0) of `post_x` over reads whose `R` flag equals `r` and flip flag equals
`f`. -/
def maskSum (post_x : List (α × α)) (R Fl : List Bool) (r f c0 : Bool) : α :=
  ((((post_x.zip (R.zip Fl)).filter (fun t => t.2.1 == r && t.2.2 == f)).map
    (fun t => if c0 then t.1.1 else t.1.2))).sum

/-- `errors` of em.py line 164: `post_x[R & ~F, 0].sum + post_x[R & F, 1].sum`. -/
def errorsOf (post_x : List (α × α)) (R Fl : List Bool) : α :=
  maskSum post_x R Fl true false true + maskSum post_x R Fl true true false

/-- `not_errors` of em.py line 166. -/
def notErrorsOf (post_x : List (α × α)) (R Fl : List Bool) : α :=
  maskSum post_x R Fl false false true + maskSum post_x R Fl false true false

/-- `bias` of em.py line 169. -/
def biasOf (post_x : List (α × α)) (R Fl : List Bool) : α :=
  maskSum post_x R Fl false false false + maskSum post_x R Fl false true true

/-- `not_bias` of em.py line 171. -/
def notBiasOf (post_x : List (α × α)) (R Fl : List Bool) : α :=
  maskSum post_x R Fl true false false + maskSum post_x R Fl true true true

/-- Shallow embedding of `update_eb` (em.py lines 156-180).  In two-error
mode both rates are guarded against a zero denominator (`else 0`).  In
single-error-rate mode (`two_errors=False`) the merged ratio has no guard:
a zero denominator produces a non-finite float (NaN when the numerator is
also zero), modelled as `none`.  The `R.astype(bool)` casts are identities
here since `READS` is already boolean. -/
def update_eb (post_x : List (α × α)) (R Fl : List Bool) (two_errors : Bool) :
    Option α × Option α :=
  let errors := errorsOf post_x R Fl
  let not_errors := notErrorsOf post_x R Fl
  let bias := biasOf post_x R Fl
  let not_bias := notBiasOf post_x R Fl
  if two_errors then
    (some (if 0 < errors + not_errors then errors / (errors + not_errors) else 0),
     some (if 0 < bias + not_bias then bias / (bias + not_bias) else 0))
  else
    let den := errors + bias + not_errors + not_bias
    if den = 0 then (none, none)
    else (some ((errors + bias) / den), some ((errors + bias) / den))

/-- The genotype posterior computed inside `update_pars` (em.py lines
198-216): `posterior_g(bwd_g, fwd_g)` with the backward chain of lines
204-208 expanded. -/
def postGOf (E : EmissionModel α) (d : SlugData α) (pars : SlugPars α) :
    List (α × α × α) :=
  E.posterior_g
    (E.bwd_p_all_o_given_g
      (E.bwd_p_one_o_given_g (E.bwd_p_o_given_x d.READS d.FLIPPED_READS pars.e pars.b)
        d.psi pars.cont d.READ2SNP d.READ2RG d.n_reads)
      d.READ2SNP d.n_snps)
    (E.fwd_p_g d pars)

/-- Shallow embedding of `update_pars` (em.py lines 183-237): one EM step.
The `deepcopy` under `copy_pars` (line 187) is purely an aliasing concern
with no effect on the returned value, so this pure model does not read
`copy_pars`; see `em` for where the aliasing matters.  The SFS branch calls
`update_ftau_numeric` (line 218) — the closed-form `update_ftau` is not
invoked here.  `none` = the `NotImplemented` raise of `update_ftau_numeric`
propagating out. -/
def update_pars (E : EmissionModel α) (d : SlugData α) (O : Controller α)
    (pars : SlugPars α) : Option (SlugPars α) :=
  let fwd_g := E.fwd_p_g d pars
  let fwd_a := d.psi
  let fwd_c := pars.cont
  let bwd_x := E.bwd_p_o_given_x d.READS d.FLIPPED_READS pars.e pars.b
  let bwd_g1 := E.bwd_p_one_o_given_g bwd_x fwd_a fwd_c d.READ2SNP d.READ2RG d.n_reads
  let bwd_g := E.bwd_p_all_o_given_g bwd_g1 d.READ2SNP d.n_snps
  let fwd_x_cont := E.fwd_p_x_cont fwd_a d.READ2SNP
  let fwd_x_nocont := E.fwd_p_x_nocont fwd_g d.READ2SNP
  let _fwd_x := E.fwd_p_x fwd_x_cont fwd_x_nocont fwd_c d.READ2RG
  let step1 : Option (SlugPars α) :=
    if O.update_ftau then
      let post_g := E.posterior_g bwd_g fwd_g
      match update_ftau_numeric E pars.F pars.tau d post_g O.update_F with
      | none => none
      | some Ft =>
        some { pars with prev_F := pars.F, prev_tau := pars.tau, F := Ft.1, tau := Ft.2 }
    else some pars
  match step1 with
  | none => none
  | some q1 =>
    let q2 :=
      if O.update_cont then
        let post_c := E.posterior_c bwd_x fwd_x_nocont fwd_x_cont fwd_c d.READ2RG
        { q1 with prev_cont := q1.cont, cont := update_c post_c d.READ2RG d.n_rgs }
      else q1
    let q3 :=
      if O.update_eb then
        let post_x := E.posterior_x bwd_x fwd_x_cont fwd_x_nocont fwd_c d.READ2RG
        let eb := update_eb post_x d.READS d.FLIPPED_READS O.update_bias
        { q2 with prev_e := q2.e, prev_b := q2.b, e := eb.1, b := eb.2 }
      else q2
    let q4 :=
      if O.do_ll then { q3 with ll := E.calc_full_ll d q3, prev_ll := q3.ll } else q3
    some q4

/-- The loop of `em` (em.py lines 312-318), by remaining iteration count.
The source calls `update_pars(pars, data, controller)` and DISCARDS the
returned object, so the caller-visible `pars` advances only through
in-place mutation — i.e. only when `copy_pars` is false (with `copy_pars`
true, `update_pars` deepcopies and mutates the copy, line 187).  `none` =
an exception from `update_pars` propagating to the caller. -/
def emLoop (E : EmissionModel α) (d : SlugData α) (O : Controller α) :
    ℕ → SlugPars α → Option (SlugPars α)
  | 0, p => some p
  | Nat.succ n, p =>
    match update_pars E d O p with
    | none => none
    | some p2 =>
      let cur := if O.copy_pars then p else p2
      if cur.delta_ll < O.ll_tol then some cur else emLoop E d O n cur

/-- Shallow embedding of `em` (em.py lines 311-320). -/
def em (E : EmissionModel α) (d : SlugData α) (O : Controller α)
    (pars : SlugPars α) : Option (SlugPars α) :=
  emLoop E d O O.n_iter pars

/-- `np.nansum` of the squares of a flattened vector: NaN (`none`) entries
count as zero. -/
noncomputable def nansumSq (v : List (Option ℝ)) : ℝ :=
  (v.map (fun o => match o with | some x => x ^ 2 | none => 0)).sum

/-- Shallow embedding of `norm` (em.py lines 13-15):
`np.sqrt(np.nansum(self ** 2))`. -/
noncomputable def norm (v : List (Option ℝ)) : ℝ := Real.sqrt (nansumSq v)

/-- `np.clip(x, lo, hi)` = `np.minimum(hi, np.maximum(lo, x))` on a scalar. -/
def clip (lo hi x : α) : α := min hi (max lo x)

/-- The SQUAREM stabilization step (em.py lines 277-282): components below 0
are set to `EPS = 1e-10`, components above 1 to `1 - EPS`.  The source
guards this with `np.all(0 <= pars) and np.all(pars <= 1)`; elementwise
the guarded and the unguarded form agree (in-bounds components are left
unchanged), and a NaN component fails both comparisons and stays NaN. -/
noncomputable def stabilize (v : List (Option ℝ)) : List (Option ℝ) :=
  v.map fun o =>
    o.map fun x => if x < 0 then eps10 else if 1 < x then 1 - eps10 else x

/-- The extrapolated candidate vector of em.py line 275:
`pars.pars + 2 * step_size * Δp1 + step_size ^ 2 * Δp3`, NaN propagating. -/
noncomputable def extrapolate (p dp1 dp3 : List (Option ℝ)) (σ : ℝ) : List (Option ℝ) :=
  List.zipWith
    (fun a bc =>
      match a, bc with
      | some x, (some u, some w) => some (x + 2 * σ * u + σ ^ 2 * w)
      | _, _ => none)
    p (dp1.zip dp3)

/-- State carried across SQUAREM outer iterations: the currently accepted
parameter vector and the adaptive `max_step` bound (`min_step` is the
constant `squarem_min`). -/
structure SqState (α : Type) where
  pars : SlugPars α
  maxStep : α
deriving DecidableEq

/-- The accept/reject tail of a SQUAREM outer iteration (em.py lines
290-300): if the candidate's `ll` did not improve on `pars2`, keep `pars2`
and, when the step size had hit the bound (`step_size >= max_step`), relax
`max_step` to `np.maximum(squarem_max, max_step / squarem_mstep)`;
otherwise accept `pars_sq` and, when the step size equalled the bound
exactly, grow `max_step` by the factor `squarem_mstep`. -/
def sqAcceptReject (O : Controller α) (pars2 pars_sq : SlugPars α) (σ maxStep : α) :
    SqState α :=
  if pars_sq.ll ≤ pars2.ll then
    { pars := pars2
      maxStep :=
        if maxStep ≤ σ then max O.squarem_max (maxStep / O.squarem_mstep) else maxStep }
  else
    { pars := pars_sq
      maxStep := if σ = maxStep then maxStep * O.squarem_mstep else maxStep }

/-- Outcome of one SQUAREM outer iteration: `stop p` = a stopping check
fired and the loop breaks with `p`; `next s` = the iteration completed an
accept/reject; `raise` = an exception propagated out of `update_pars`;
`nan` = the `0/0` IEEE step size (`‖Δp1‖` and `‖Δp3‖` both zero, reachable
only when `param_tol ≤ 0`), which poisons the state with NaN and whose
continuation is not modelled. -/
inductive SqOut (α : Type) where
  | stop : SlugPars α → SqOut α
  | next : SqState α → SqOut α
  | raise : SqOut α
  | nan : SqOut α
deriving DecidableEq

/-- Lines 274-300 of em.py: `pars_sq = deepcopy(pars2)` with its flattened
vector overwritten by the stabilized extrapolation from the current point,
re-evaluated by `update_pars`, then accepted or rejected. -/
noncomputable def sqFinish (E : EmissionModel ℝ) (d : SlugData ℝ) (O : Controller ℝ)
    (s : SqState ℝ) (pars2 : SlugPars ℝ) (dp1 dp3 : List (Option ℝ)) (σ : ℝ) : SqOut ℝ :=
  let cand := stabilize (extrapolate s.pars.flat dp1 dp3 σ)
  match update_pars E d O (pars2.setFlat cand) with
  | none => SqOut.raise
  | some pars_sq => SqOut.next (sqAcceptReject O pars2 pars_sq σ s.maxStep)

/-- One outer iteration of `squarem` (em.py lines 249-306).  The step size
`norm(Δp1) / norm(Δp3)` is an IEEE division with no zero guard in the
source: when `‖Δp3‖ = 0` and `‖Δp1‖ ≠ 0` it is `+∞` and
`np.clip(+∞, min_step, max_step) = max_step`, so the iteration proceeds
with `step_size = max_step`; when both norms are zero it is NaN
(`SqOut.nan`). -/
noncomputable def squaremStep (E : EmissionModel ℝ) (d : SlugData ℝ) (O : Controller ℝ)
    (s : SqState ℝ) : SqOut ℝ :=
  match update_pars E d O s.pars with
  | none => SqOut.raise
  | some pars1 =>
    let dp1 := vsub pars1.flat s.pars.flat
    if norm dp1 < O.param_tol ∨ pars1.ll - pars1.prev_ll < O.ll_tol then SqOut.stop pars1
    else
      match update_pars E d O pars1 with
      | none => SqOut.raise
      | some pars2 =>
        let dp2 := vsub pars2.flat pars1.flat
        if norm dp2 < O.param_tol ∨ pars2.ll - pars1.ll < O.ll_tol then SqOut.stop pars2
        else
          let dp3 := vsub dp2 dp1
          if norm dp3 = 0 then
            if norm dp1 = 0 then SqOut.nan
            else sqFinish E d O s pars2 dp1 dp3 s.maxStep
          else
            sqFinish E d O s pars2 dp1 dp3
              (clip O.squarem_min s.maxStep (norm dp1 / norm dp3))

/-- The outer loop of `squarem` (em.py line 249), by remaining iteration
count. -/
noncomputable def squaremGo (E : EmissionModel ℝ) (d : SlugData ℝ) (O : Controller ℝ) :
    ℕ → SqState ℝ → Option (SlugPars ℝ)
  | 0, s => some s.pars
  | Nat.succ n, s =>
    match squaremStep E d O s with
    | SqOut.stop p => some p
    | SqOut.next s2 => squaremGo E d O n s2
    | SqOut.raise => none
    | SqOut.nan => none

/-- Shallow embedding of `squarem` (em.py lines 240-308).  Line 244 mutates
the caller's controller object (`controller.copy_pars = True`) before the
loop; the model returns the final parameters together with the controller
as the call leaves it.  `max_step` starts at `squarem_max` and is
loop-carried in `SqState`; the controller object itself is not written
again. -/
noncomputable def squarem (E : EmissionModel ℝ) (d : SlugData ℝ) (O : Controller ℝ)
    (pars0 : SlugPars ℝ) : Option (SlugPars ℝ) × Controller ℝ :=
  let O2 := { O with copy_pars := true }
  (squaremGo E d O2 O.n_iter { pars := pars0, maxStep := O.squarem_max }, O2)

/-! Concrete instances used for counterexamples and witnesses. -/

/-- A one-read, one-SNP, one-read-group, one-SFS-category dataset. -/
def dQ : SlugData ℚ :=
  { READS := [true], FLIPPED_READS := [false], READ2SNP := [0], READ2RG := [0],
    SNP2SFS := [0], psi := [0], haploid_snps := none,
    n_snps := 1, n_reads := 1, n_sfs := 1, n_rgs := 1 }

/-- A concrete emission model over `ℚ`: the genotype posterior is the single
row `(4, 2, 2)`, the contamination posterior adds `1` to the current rate of
the single read's group, the full log-likelihood is the first contamination
rate, and the external optimizer returns the constant point
`x = (tau, F) = (9/10, 8/10)`. -/
def EQ : EmissionModel ℚ :=
  { fwd_p_g := fun _ _ => []
    bwd_p_o_given_x := fun _ _ _ _ => []
    bwd_p_one_o_given_g := fun _ _ _ _ _ _ => []
    bwd_p_all_o_given_g := fun _ _ _ => []
    fwd_p_x_cont := fun _ _ => []
    fwd_p_x_nocont := fun _ _ => []
    fwd_p_x := fun _ _ _ _ => []
    posterior_g := fun _ _ => [(4, 2, 2)]
    posterior_c := fun _ _ _ fwd_c _ => [((fwd_c.headD (some 0)).getD 0) + 1]
    posterior_x := fun _ _ _ _ _ => []
    calc_full_ll := fun _ p => (p.cont.headD (some 0)).getD 0
    minimize := fun _ _ _ => { x := (9/10, 8/10), success := true }
    log := fun x => x }

/-- A concrete parameter vector over `ℚ`. -/
def pQ : SlugPars ℚ :=
  { F := [1/2], tau := [1/2], cont := [some 0], e := some 0, b := some 0,
    ll := 0, prev_ll := -1, prev_F := [1/2], prev_tau := [1/2],
    prev_cont := [some 0], prev_e := some 0, prev_b := some 0 }

/-- A concrete controller over `ℚ` (only the contamination update and the
likelihood bookkeeping enabled). -/
def OQ : Controller ℚ :=
  { update_ftau := false, update_cont := true, update_eb := false,
    update_bias := false, update_F := true, do_ll := true, copy_pars := false,
    n_iter := 1, param_tol := 0, ll_tol := 0,
    squarem_min := 1, squarem_max := 4, squarem_mstep := 2 }

/-- `pQ` after one EM step of `EQ`/`dQ`/`OQ` (contamination update and
likelihood bookkeeping): `cont` moved from `0` to `1`. -/
def pQ2 : SlugPars ℚ :=
  { F := [1/2], tau := [1/2], cont := [some 1], e := some 0, b := some 0,
    ll := 1, prev_ll := 0, prev_F := [1/2], prev_tau := [1/2],
    prev_cont := [some 0], prev_e := some 0, prev_b := some 0 }

/-- The one-read dataset over `ℝ`, for the SQUAREM scenario. -/
noncomputable def dR : SlugData ℝ :=
  { READS := [true], FLIPPED_READS := [false], READ2SNP := [0], READ2RG := [0],
    SNP2SFS := [0], psi := [0], haploid_snps := none,
    n_snps := 1, n_reads := 1, n_sfs := 1, n_rgs := 1 }

/-- The concrete emission model over `ℝ` for the SQUAREM scenario: each EM
step moves the single contamination rate up by `1/100`, and the full
log-likelihood equals that rate, so two EM steps from `cont = 0` give
`Δp1 = Δp2 = (1/100, 0, 0)` and `Δp3 = 0`. -/
noncomputable def ER : EmissionModel ℝ :=
  { fwd_p_g := fun _ _ => []
    bwd_p_o_given_x := fun _ _ _ _ => []
    bwd_p_one_o_given_g := fun _ _ _ _ _ _ => []
    bwd_p_all_o_given_g := fun _ _ _ => []
    fwd_p_x_cont := fun _ _ => []
    fwd_p_x_nocont := fun _ _ => []
    fwd_p_x := fun _ _ _ _ => []
    posterior_g := fun _ _ => []
    posterior_c := fun _ _ _ fwd_c _ => [((fwd_c.headD (some 0)).getD 0) + 1 / 100]
    posterior_x := fun _ _ _ _ _ => []
    calc_full_ll := fun _ p => (p.cont.headD (some 0)).getD 0
    minimize := fun _ _ _ => { x := (0, 0), success := true }
    log := fun x => x }

/-- SQUAREM scenario controller: `param_tol = ll_tol = 1/200`, step bounds
`[1, 4]`, shrink factor `2`, one outer iteration. -/
noncomputable def OscR : Controller ℝ :=
  { update_ftau := false, update_cont := true, update_eb := false,
    update_bias := false, update_F := true, do_ll := true, copy_pars := false,
    n_iter := 1, param_tol := 1 / 200, ll_tol := 1 / 200,
    squarem_min := 1, squarem_max := 4, squarem_mstep := 2 }

/-- SQUAREM scenario start point: `cont = 0`, `ll = 0`. -/
noncomputable def p0R : SlugPars ℝ :=
  { F := [], tau := [], cont := [some 0], e := some 0, b := some 0,
    ll := 0, prev_ll := 0, prev_F := [], prev_tau := [],
    prev_cont := [some 0], prev_e := some 0, prev_b := some 0 }

/-- The scenario after one EM step: `cont = 1/100 = ll`. -/
noncomputable def p1R : SlugPars ℝ :=
  { F := [], tau := [], cont := [some (1 / 100)], e := some 0, b := some 0,
    ll := 1 / 100, prev_ll := 0, prev_F := [], prev_tau := [],
    prev_cont := [some 0], prev_e := some 0, prev_b := some 0 }

/-- The scenario after two EM steps: `cont = 1/50 = ll`. -/
noncomputable def p2R : SlugPars ℝ :=
  { F := [], tau := [], cont := [some (1 / 50)], e := some 0, b := some 0,
    ll := 1 / 50, prev_ll := 1 / 100, prev_F := [], prev_tau := [],
    prev_cont := [some (1 / 100)], prev_e := some 0, prev_b := some 0 }

/-- `OscR` as `squarem` leaves it: `copy_pars` forced to `true`. -/
noncomputable def OscT : Controller ℝ := { OscR with copy_pars := true }

/-- The stabilized extrapolated candidate of the scenario before its
re-evaluation: `deepcopy(pars2)` with the flattened vector overwritten by
`p0 + 2·4·Δp1 + 4²·Δp3 = (2/25, 0, 0)`. -/
noncomputable def psq0 : SlugPars ℝ :=
  { F := [], tau := [], cont := [some (2 / 25)], e := some 0, b := some 0,
    ll := 1 / 50, prev_ll := 1 / 100, prev_F := [], prev_tau := [],
    prev_cont := [some (1 / 100)], prev_e := some 0, prev_b := some 0 }

/-- The re-evaluated extrapolated candidate of the scenario: the candidate
`cont = 0 + 2·4·(1/100) = 2/25` updated once more, so `cont = 9/100 = ll`. -/
noncomputable def psqR : SlugPars ℝ :=
  { F := [], tau := [], cont := [some (9 / 100)], e := some 0, b := some 0,
    ll := 9 / 100, prev_ll := 1 / 50, prev_F := [], prev_tau := [],
    prev_cont := [some (2 / 25)], prev_e := some 0, prev_b := some 0 }

/-! Helper lemmas. -/

theorem foldlInv {σ β : Type} (P : σ → Prop) (f : σ → β → σ) (l : List β) (init : σ)
    (h0 : P init) (hstep : ∀ s x, P s → P (f s x)) : P (l.foldl f init) := by
  induction l generalizing init with
  | nil => exact h0
  | cons a t ih => exact ih _ (hstep _ _ h0)

theorem update_ftau_snd_eq (old_F old_tau : List α) (d : SlugData α)
    (post_g : List (α × α × α)) (uF : Bool) :
    (update_ftau old_F old_tau d post_g uF).2 =
      (List.range d.n_sfs).foldl
        (fun t k => t.set k (tauFormula (catG post_g d.SNP2SFS k))) old_tau := by
  unfold update_ftau
  generalize List.range d.n_sfs = l
  induction l generalizing old_F old_tau with
  | nil => rfl
  | cons a t ih =>
    rw [List.foldl_cons, List.foldl_cons]
    exact ih _ _

theorem foldl_set_length {β : Type} (f : ℕ → β) (l : List ℕ) (init : List β) :
    (l.foldl (fun t j => t.set j (f j)) init).length = init.length := by
  induction l generalizing init with
  | nil => rfl
  | cons a t ih => rw [List.foldl_cons, ih]; simp

theorem foldl_set_getElem {β : Type} (f : ℕ → β) (n k : ℕ) (init : List β)
    (hk : k < n) (hlen : k < init.length) :
    ((List.range n).foldl (fun t j => t.set j (f j)) init)[k]? = some (f k) := by
  induction n with
  | zero => omega
  | succ m ih =>
    rw [List.range_succ, List.foldl_append, List.foldl_cons, List.foldl_nil]
    rcases Nat.lt_or_ge k m with h | h
    · rw [List.getElem?_set_ne (by omega : m ≠ k)]
      exact ih h
    · have hkm : k = m := by omega
      subst hkm
      exact List.getElem?_set_eq_of_lt _ (by rw [foldl_set_length]; exact hlen)

theorem mem_of_mem_maskCol {β : Type} {rows : List β} {mask : List Bool} {x : β}
    (hx : x ∈ ((rows.zip mask).filter (fun t => t.2)).map (fun t => t.1)) :
    x ∈ rows := by
  obtain ⟨t, ht, rfl⟩ := List.mem_map.mp hx
  exact (List.of_mem_zip (List.mem_filter.mp ht).1).1

theorem maskSum3_nonneg (rows : List (α × α × α)) (mask : List Bool)
    (h : ∀ g ∈ rows, 0 ≤ g.1 ∧ 0 ≤ g.2.1 ∧ 0 ≤ g.2.2) :
    0 ≤ (maskSum3 rows mask).1 ∧ 0 ≤ (maskSum3 rows mask).2.1 ∧
      0 ≤ (maskSum3 rows mask).2.2 := by
  unfold maskSum3 sum3
  refine ⟨List.sum_nonneg ?_, List.sum_nonneg ?_, List.sum_nonneg ?_⟩ <;>
  · intro x hx
    obtain ⟨t, ht, rfl⟩ := List.mem_map.mp hx
    rcases h t (mem_of_mem_maskCol ht) with ⟨h1, h2, h3⟩
    first
    | exact h1
    | exact h2
    | exact h3

theorem tauFormula_bounds (G : α × α × α) (h0 : 0 ≤ G.1) (h1 : 0 ≤ G.2.1)
    (h2 : 0 ≤ G.2.2) : 0 ≤ tauFormula G ∧ tauFormula G ≤ 1 := by
  unfold tauFormula
  split
  · rename_i h
    constructor
    · exact div_nonneg (by linarith) (le_of_lt h)
    · rw [div_le_one h]; linarith
  · norm_num

theorem clip01_bounds (x : α) : 0 ≤ clip01 x ∧ clip01 x ≤ 1 := by
  unfold clip01
  constructor
  · exact le_min (by norm_num) (le_max_left 0 x)
  · exact min_le_left 1 _

/-! Claim C5. -/

/-- C5: for every SFS category `k`, the closed-form `update_ftau` sets
`tau[k]` to `(G1/2 + G2)/(G0+G1+G2)` from the aggregated posterior genotype
totals over the SNPs of category `k` when that denominator is positive, and
sets `tau[k] = 0` without raising when it is zero (in particular for a
category with zero assigned SNPs). -/
theorem C5_tau_closed_form (old_F old_tau : List α) (d : SlugData α)
    (post_g : List (α × α × α)) (uF : Bool) (k : ℕ)
    (hk : k < d.n_sfs) (hlen : old_tau.length = d.n_sfs) :
    ((catG post_g d.SNP2SFS k).1 + (catG post_g d.SNP2SFS k).2.1 +
        (catG post_g d.SNP2SFS k).2.2 = 0 →
      (update_ftau old_F old_tau d post_g uF).2[k]? = some 0) ∧
    (0 < (catG post_g d.SNP2SFS k).1 + (catG post_g d.SNP2SFS k).2.1 +
        (catG post_g d.SNP2SFS k).2.2 →
      (update_ftau old_F old_tau d post_g uF).2[k]? =
        some (((catG post_g d.SNP2SFS k).2.1 / 2 + (catG post_g d.SNP2SFS k).2.2) /
          ((catG post_g d.SNP2SFS k).1 + (catG post_g d.SNP2SFS k).2.1 +
            (catG post_g d.SNP2SFS k).2.2))) := by
  have hpos : (update_ftau old_F old_tau d post_g uF).2[k]? =
      some (tauFormula (catG post_g d.SNP2SFS k)) := by
    rw [update_ftau_snd_eq]
    exact foldl_set_getElem _ _ _ _ hk (hlen ▸ hk)
  constructor
  · intro h0
    rw [hpos]
    simp [tauFormula, h0]
  · intro hgt
    rw [hpos]
    rw [tauFormula, if_pos hgt]

/-- Witness for C5: the concrete scenario `n_sfs = 1`, aggregated totals
`(G0, G1, G2) = (10, 0, 0)`: `tau = 0` (and this degenerate-looking input
raises nothing), while `F` comes out as `2*G0 / (2*G0 + 1e-300)`. -/
theorem C5_tau_closed_form_witness :
    (update_ftau [(1:ℚ)/2] [1/2] dQ [(10, 0, 0)] true).2[0]? = some 0 ∧
    (update_ftau [(1:ℚ)/2] [1/2] dQ [(10, 0, 0)] true).1 =
      [2 * 10 / (2 * 10 + eps300)] := by
  constructor
  · rw [(C5_tau_closed_form [(1:ℚ)/2] [1/2] dQ [(10, 0, 0)] true 0 (by decide)
      (by decide)).2 (by norm_num [catG, maskSum3, sum3, sfsMask, dQ])]
    norm_num [catG, maskSum3, sum3, sfsMask, dQ]
  · norm_num [update_ftau, ftauStep, catG, catGH, maskSum3, sum3, sfsMask, dQ,
      tauFormula, Fformula, clip01, eps300, min_def, max_def, List.range_succ]

/-! More helper lemmas, for the bound claims. -/

theorem ftauStep_fst (d : SlugData α) (post_g : List (α × α × α)) (uF : Bool)
    (s : List α × List α) (k : ℕ) :
    (ftauStep d post_g uF s k).1 =
      (if uF then s.1.set k (Fformula (catGH post_g d k)) else s.1).map clip01 := rfl

theorem ftauStep_snd (d : SlugData α) (post_g : List (α × α × α)) (uF : Bool)
    (s : List α × List α) (k : ℕ) :
    (ftauStep d post_g uF s k).2 = s.2.set k (tauFormula (catG post_g d.SNP2SFS k)) := rfl

theorem maskSum_nonneg (post_x : List (α × α)) (R Fl : List Bool) (r f c0 : Bool)
    (h : ∀ t ∈ post_x, 0 ≤ t.1 ∧ 0 ≤ t.2) : 0 ≤ maskSum post_x R Fl r f c0 := by
  refine List.sum_nonneg ?_
  intro x hx
  obtain ⟨t, ht, rfl⟩ := List.mem_map.mp hx
  have hm : t.1 ∈ post_x := (List.of_mem_zip (List.mem_filter.mp ht).1).1
  rcases h t.1 hm with ⟨h1, h2⟩
  cases c0
  · simpa using h2
  · simpa using h1

theorem errorsOf_nonneg (post_x : List (α × α)) (R Fl : List Bool)
    (h : ∀ t ∈ post_x, 0 ≤ t.1 ∧ 0 ≤ t.2) : 0 ≤ errorsOf post_x R Fl :=
  add_nonneg (maskSum_nonneg _ _ _ _ _ _ h) (maskSum_nonneg _ _ _ _ _ _ h)

theorem notErrorsOf_nonneg (post_x : List (α × α)) (R Fl : List Bool)
    (h : ∀ t ∈ post_x, 0 ≤ t.1 ∧ 0 ≤ t.2) : 0 ≤ notErrorsOf post_x R Fl :=
  add_nonneg (maskSum_nonneg _ _ _ _ _ _ h) (maskSum_nonneg _ _ _ _ _ _ h)

theorem biasOf_nonneg (post_x : List (α × α)) (R Fl : List Bool)
    (h : ∀ t ∈ post_x, 0 ≤ t.1 ∧ 0 ≤ t.2) : 0 ≤ biasOf post_x R Fl :=
  add_nonneg (maskSum_nonneg _ _ _ _ _ _ h) (maskSum_nonneg _ _ _ _ _ _ h)

theorem notBiasOf_nonneg (post_x : List (α × α)) (R Fl : List Bool)
    (h : ∀ t ∈ post_x, 0 ≤ t.1 ∧ 0 ≤ t.2) : 0 ≤ notBiasOf post_x R Fl :=
  add_nonneg (maskSum_nonneg _ _ _ _ _ _ h) (maskSum_nonneg _ _ _ _ _ _ h)

theorem ratio_bounds (a b : α) (ha : 0 ≤ a) (hb : 0 ≤ b) :
    0 ≤ (if 0 < a + b then a / (a + b) else 0) ∧
      (if 0 < a + b then a / (a + b) else 0) ≤ 1 := by
  split
  · rename_i h
    exact ⟨div_nonneg ha h.le, by rw [div_le_one h]; linarith⟩
  · norm_num

theorem update_eb_true_eq (post_x : List (α × α)) (R Fl : List Bool) :
    update_eb post_x R Fl true =
      (some (if 0 < errorsOf post_x R Fl + notErrorsOf post_x R Fl then
          errorsOf post_x R Fl / (errorsOf post_x R Fl + notErrorsOf post_x R Fl) else 0),
       some (if 0 < biasOf post_x R Fl + notBiasOf post_x R Fl then
          biasOf post_x R Fl / (biasOf post_x R Fl + notBiasOf post_x R Fl) else 0)) := rfl

theorem update_eb_false_eq (post_x : List (α × α)) (R Fl : List Bool) :
    update_eb post_x R Fl false =
      (if errorsOf post_x R Fl + biasOf post_x R Fl + notErrorsOf post_x R Fl +
          notBiasOf post_x R Fl = 0 then (none, none)
       else
        (some ((errorsOf post_x R Fl + biasOf post_x R Fl) /
          (errorsOf post_x R Fl + biasOf post_x R Fl + notErrorsOf post_x R Fl +
            notBiasOf post_x R Fl)),
         some ((errorsOf post_x R Fl + biasOf post_x R Fl) /
          (errorsOf post_x R Fl + biasOf post_x R Fl + notErrorsOf post_x R Fl +
            notBiasOf post_x R Fl)))) := rfl

omit [LinearOrderedField α] in
theorem mem_of_mem_rgGroup {post_c : List α} {READ2RG : List ℕ} {r : ℕ} {x : α}
    (hx : x ∈ rgGroup post_c READ2RG r) : x ∈ post_c := by
  obtain ⟨t, ht, rfl⟩ := List.mem_map.mp hx
  exact (List.of_mem_zip (List.mem_filter.mp ht).1).1

/-! Claim C6. -/

/-- C6 counterexample: on an input inside the declared domain (the single
genotype-posterior row `(1,0,0)`, prior parameters in bounds) the closed-form
update returns `tau = [0]`, refuting the claimed strict bound
`0 < tau[k] < 1`: `tau` is left at `0`, not clipped into `(0,1)`. -/
theorem C6_cex :
    ¬ ∀ x ∈ (update_ftau [(1:ℚ)/2] [1/2] dQ [(1, 0, 0)] true).2, 0 < x := by
  have e : (update_ftau [(1:ℚ)/2] [1/2] dQ [(1, 0, 0)] true).2 = [0] := by
    norm_num [update_ftau, ftauStep, catG, catGH, maskSum3, sum3, sfsMask, dQ,
      tauFormula, Fformula, clip01, eps300, min_def, max_def, List.range_succ]
  intro h
  have h0 := h 0 (by rw [e]; simp)
  exact lt_irrefl 0 h0

/-- C6 amended: after each update and for inputs in the declared domain
(nonnegative posteriors, prior parameters in bounds), `F` is clipped into
`[0,1]`; `tau` lies in the closed interval `[0,1]` (the endpoints are
attainable — `tau` is not clipped and the strict bounds of the claim fail);
`e` and `b` lie in `[0,1]` in two-error mode; and every finite
contamination rate lies in `[0,1]`. -/
theorem C6_amended :
    (∀ (old_F old_tau : List α) (d : SlugData α) (post_g : List (α × α × α)) (uF : Bool),
        (∀ g ∈ post_g, 0 ≤ g.1 ∧ 0 ≤ g.2.1 ∧ 0 ≤ g.2.2) →
        (∀ x ∈ old_F, 0 ≤ x ∧ x ≤ 1) →
        (∀ x ∈ old_tau, 0 ≤ x ∧ x ≤ 1) →
        (∀ x ∈ (update_ftau old_F old_tau d post_g uF).1, 0 ≤ x ∧ x ≤ 1) ∧
        (∀ x ∈ (update_ftau old_F old_tau d post_g uF).2, 0 ≤ x ∧ x ≤ 1)) ∧
    (∀ (post_x : List (α × α)) (R Fl : List Bool) (e0 b0 : α),
        (∀ t ∈ post_x, 0 ≤ t.1 ∧ 0 ≤ t.2) →
        update_eb post_x R Fl true = (some e0, some b0) →
        (0 ≤ e0 ∧ e0 ≤ 1) ∧ (0 ≤ b0 ∧ b0 ≤ 1)) ∧
    (∀ (post_c : List α) (READ2RG : List ℕ) (n_rgs : ℕ) (v : α),
        (∀ x ∈ post_c, 0 ≤ x ∧ x ≤ 1) →
        some v ∈ update_c post_c READ2RG n_rgs →
        0 ≤ v ∧ v ≤ 1) := by
  refine ⟨?_, ?_, ?_⟩
  · intro old_F old_tau d post_g uF hg hF htau
    unfold update_ftau
    refine foldlInv
      (fun s => (∀ x ∈ s.1, 0 ≤ x ∧ x ≤ 1) ∧ (∀ x ∈ s.2, 0 ≤ x ∧ x ≤ 1))
      (ftauStep d post_g uF) (List.range d.n_sfs) (old_F, old_tau) ⟨hF, htau⟩ ?_
    intro s k hs
    constructor
    · intro x hx
      rw [ftauStep_fst] at hx
      obtain ⟨y, hy, rfl⟩ := List.mem_map.mp hx
      exact clip01_bounds y
    · intro x hx
      rw [ftauStep_snd] at hx
      rcases List.mem_or_eq_of_mem_set hx with h | h
      · exact hs.2 x h
      · subst h
        have hG := maskSum3_nonneg post_g (sfsMask d.SNP2SFS k) hg
        exact tauFormula_bounds _ hG.1 hG.2.1 hG.2.2
  · intro post_x R Fl e0 b0 hpx heq
    rw [update_eb_true_eq] at heq
    have he0 : e0 = (if 0 < errorsOf post_x R Fl + notErrorsOf post_x R Fl then
        errorsOf post_x R Fl / (errorsOf post_x R Fl + notErrorsOf post_x R Fl) else 0) := by
      have h1 := congrArg Prod.fst heq
      simpa using h1.symm
    have hb0 : b0 = (if 0 < biasOf post_x R Fl + notBiasOf post_x R Fl then
        biasOf post_x R Fl / (biasOf post_x R Fl + notBiasOf post_x R Fl) else 0) := by
      have h1 := congrArg Prod.snd heq
      simpa using h1.symm
    subst he0
    subst hb0
    exact ⟨ratio_bounds _ _ (errorsOf_nonneg _ _ _ hpx) (notErrorsOf_nonneg _ _ _ hpx),
      ratio_bounds _ _ (biasOf_nonneg _ _ _ hpx) (notBiasOf_nonneg _ _ _ hpx)⟩
  · intro post_c READ2RG n_rgs v hpc hv
    unfold update_c at hv
    obtain ⟨r, hr, hmean⟩ := List.mem_map.mp hv
    simp only [rgMean] at hmean
    split at hmean
    · exact absurd hmean (by simp)
    · rename_i hne
      have hv2 : v = (rgGroup post_c READ2RG r).sum /
          ((rgGroup post_c READ2RG r).length : α) := by
        simpa using hmean.symm
      subst hv2
      have hlen : 0 < ((rgGroup post_c READ2RG r).length : α) := by
        have h1 : 0 < (rgGroup post_c READ2RG r).length := Nat.pos_of_ne_zero hne
        exact_mod_cast h1
      constructor
      · refine div_nonneg (List.sum_nonneg ?_) hlen.le
        intro x hx
        exact (hpc x (mem_of_mem_rgGroup hx)).1
      · rw [div_le_one hlen]
        have h1 := List.sum_le_card_nsmul (rgGroup post_c READ2RG r) 1
          (fun x hx => (hpc x (mem_of_mem_rgGroup hx)).2)
        simpa [nsmul_eq_mul] using h1

/-- Witness for C6 amended: the `tau` bound applied to a concrete member. -/
theorem C6_amended_witness :
    0 ≤ (update_ftau [(1:ℚ)/2] [1/2] dQ [(1, 0, 0)] true).2.headD 9 ∧
      (update_ftau [(1:ℚ)/2] [1/2] dQ [(1, 0, 0)] true).2.headD 9 ≤ 1 := by
  have e : (update_ftau [(1:ℚ)/2] [1/2] dQ [(1, 0, 0)] true).2 = [0] := by
    norm_num [update_ftau, ftauStep, catG, catGH, maskSum3, sum3, sfsMask, dQ,
      tauFormula, Fformula, clip01, eps300, min_def, max_def, List.range_succ]
  refine (C6_amended.1 [(1:ℚ)/2] [1/2] dQ [(1, 0, 0)] true ?_ ?_ ?_).2 _ ?_
  · intro g hg
    simp only [List.mem_singleton] at hg
    subst hg
    norm_num
  · intro x hx
    simp only [List.mem_singleton] at hx
    subst hx
    norm_num
  · intro x hx
    simp only [List.mem_singleton] at hx
    subst hx
    norm_num
  · rw [e]
    simp

/-! Claim C7. -/

/-- C7 counterexample: in single-error-rate mode (`two_errors=False`) the
returned `e` is the merged ratio, not `errors/(errors+not_errors)` (here
`1/2`, not `1`), and with zero observations the unguarded division returns
a non-finite value (`none`), not the claimed fallback `0`. -/
theorem C7_cex :
    (update_eb [((1:ℚ), 0), (0, 1)] [true, true] [false, false] false).1 ≠
      some (errorsOf [((1:ℚ), 0), (0, 1)] [true, true] [false, false] /
        (errorsOf [((1:ℚ), 0), (0, 1)] [true, true] [false, false] +
          notErrorsOf [((1:ℚ), 0), (0, 1)] [true, true] [false, false])) ∧
    (update_eb ([] : List (ℚ × ℚ)) [] [] false).1 ≠ some 0 := by
  constructor
  · norm_num [update_eb, errorsOf, notErrorsOf, biasOf, notBiasOf, maskSum]
  · simp [update_eb, errorsOf, notErrorsOf, biasOf, notBiasOf, maskSum]

/-- C7 amended: in two-error mode `e = errors/(errors+not_errors)` with
defined fallback `0` on a zero (or negative) denominator, and `b` likewise
from the bias counts; in single-error-rate mode the merged ratio
`(errors+bias)/(errors+bias+not_errors+not_bias)` is returned for both `e`
and `b` (so `e = b`) with NO zero-denominator guard — a zero total yields a
non-finite value (`none`), not `0`.  `update_eb` is a total function: an
error class with zero observations never raises. -/
theorem C7_amended (post_x : List (α × α)) (R Fl : List Bool) :
    update_eb post_x R Fl true =
      (some (if 0 < errorsOf post_x R Fl + notErrorsOf post_x R Fl then
          errorsOf post_x R Fl / (errorsOf post_x R Fl + notErrorsOf post_x R Fl) else 0),
       some (if 0 < biasOf post_x R Fl + notBiasOf post_x R Fl then
          biasOf post_x R Fl / (biasOf post_x R Fl + notBiasOf post_x R Fl) else 0)) ∧
    update_eb post_x R Fl false =
      (if errorsOf post_x R Fl + biasOf post_x R Fl + notErrorsOf post_x R Fl +
          notBiasOf post_x R Fl = 0 then (none, none)
       else
        (some ((errorsOf post_x R Fl + biasOf post_x R Fl) /
          (errorsOf post_x R Fl + biasOf post_x R Fl + notErrorsOf post_x R Fl +
            notBiasOf post_x R Fl)),
         some ((errorsOf post_x R Fl + biasOf post_x R Fl) /
          (errorsOf post_x R Fl + biasOf post_x R Fl + notErrorsOf post_x R Fl +
            notBiasOf post_x R Fl)))) :=
  ⟨update_eb_true_eq post_x R Fl, update_eb_false_eq post_x R Fl⟩

/-! Claim C8. -/

/-- C8 counterexample: a read-group with zero assigned reads gets
`np.mean` of an empty slice, which is NaN (`none`), not a NaN-free
fallback value (no error is raised, but the value is non-finite). -/
theorem C8_cex : update_c ([] : List ℚ) [] 1 = [none] := rfl

/-- C8 amended: for every `r < n_rgs`, `cont[r]` is
`np.mean(post_c[READ2RG == r])`: the group mean when at least one read is
assigned, and NaN (`none`) for an empty group; `update_c` is total and
never raises. -/
theorem C8_update_c (post_c : List α) (READ2RG : List ℕ) (n_rgs r : ℕ)
    (hr : r < n_rgs) :
    (update_c post_c READ2RG n_rgs)[r]? = some (rgMean post_c READ2RG r) ∧
    rgMean post_c READ2RG r =
      (if (rgGroup post_c READ2RG r).length = 0 then none
       else some ((rgGroup post_c READ2RG r).sum /
        ((rgGroup post_c READ2RG r).length : α))) := by
  refine ⟨?_, rfl⟩
  unfold update_c
  rw [List.getElem?_map, List.getElem?_range hr]
  rfl

/-- Witness for C8: a one-read group whose rate is the group mean. -/
theorem C8_update_c_witness :
    (update_c [(3:ℚ)/4] [0] 1)[0]? = some (rgMean [(3:ℚ)/4] [0] 0) ∧
    rgMean [(3:ℚ)/4] [0] 0 =
      (if (rgGroup [(3:ℚ)/4] [0] 0).length = 0 then none
       else some ((rgGroup [(3:ℚ)/4] [0] 0).sum /
        ((rgGroup [(3:ℚ)/4] [0] 0).length : ℚ))) :=
  C8_update_c [(3:ℚ)/4] [0] 1 0 (by decide)

/-! Structural lemmas about `update_pars`. -/

theorem update_pars_tau (E : EmissionModel α) (d : SlugData α) (O : Controller α)
    (p : SlugPars α) :
    (update_pars E d O p).map SlugPars.tau =
      (if O.update_ftau then
        (update_ftau_numeric E p.F p.tau d (postGOf E d p) O.update_F).map Prod.snd
       else some p.tau) := by
  unfold update_pars postGOf
  cases hf : O.update_ftau
  · simp [apply_ite SlugPars.tau]
  · cases hnum : update_ftau_numeric E p.F p.tau d
      (E.posterior_g
        (E.bwd_p_all_o_given_g
          (E.bwd_p_one_o_given_g (E.bwd_p_o_given_x d.READS d.FLIPPED_READS p.e p.b)
            d.psi p.cont d.READ2SNP d.READ2RG d.n_reads)
          d.READ2SNP d.n_snps)
        (E.fwd_p_g d p)) O.update_F
    · simp [hnum]
    · simp [hnum, apply_ite SlugPars.tau]

theorem update_pars_F (E : EmissionModel α) (d : SlugData α) (O : Controller α)
    (p : SlugPars α) :
    (update_pars E d O p).map SlugPars.F =
      (if O.update_ftau then
        (update_ftau_numeric E p.F p.tau d (postGOf E d p) O.update_F).map Prod.fst
       else some p.F) := by
  unfold update_pars postGOf
  cases hf : O.update_ftau
  · simp [apply_ite SlugPars.F]
  · cases hnum : update_ftau_numeric E p.F p.tau d
      (E.posterior_g
        (E.bwd_p_all_o_given_g
          (E.bwd_p_one_o_given_g (E.bwd_p_o_given_x d.READS d.FLIPPED_READS p.e p.b)
            d.psi p.cont d.READ2SNP d.READ2RG d.n_reads)
          d.READ2SNP d.n_snps)
        (E.fwd_p_g d p)) O.update_F
    · simp [hnum]
    · simp [hnum, apply_ite SlugPars.F]

theorem update_pars_ll_fields (E : EmissionModel α) (d : SlugData α)
    (O : Controller α) (p q : SlugPars α) (h : update_pars E d O p = some q) :
    (O.do_ll = true → q.prev_ll = p.ll) ∧
    (O.do_ll = false → q.ll = p.ll ∧ q.prev_ll = p.prev_ll) := by
  unfold update_pars at h
  cases hf : O.update_ftau <;> rw [hf] at h <;> simp only [Bool.false_eq_true,
    if_false, if_true] at h
  · obtain rfl := Option.some.inj h
    cases hll : O.do_ll <;>
      simp [hll, apply_ite SlugPars.ll, apply_ite SlugPars.prev_ll,
        apply_ite SlugPars.e, apply_ite SlugPars.b]
  · cases hnum : update_ftau_numeric E p.F p.tau d _ O.update_F <;> rw [hnum] at h
    · exact absurd h (by simp)
    · obtain rfl := Option.some.inj h
      cases hll : O.do_ll <;>
        simp [hll, apply_ite SlugPars.ll, apply_ite SlugPars.prev_ll]

/-! Claim C4. -/

/-- C4 counterexample (negation of the claim): no configuration makes
`update_pars` invoke the closed-form SFS update.  At this concrete input the
closed form yields `tau = [3/8]`, while `update_pars` returns `tau`
unchanged (`[1/2]`, SFS update disabled), the numeric-optimizer result
(`[9/10]`, SFS update enabled), or raises (`update_F` false) — never the
closed-form value. -/
theorem C4_cex :
    ¬ ∃ O : Controller ℚ, (update_pars EQ dQ O pQ).map SlugPars.tau =
      some (update_ftau pQ.F pQ.tau dQ (postGOf EQ dQ pQ) true).2 := by
  rintro ⟨O, h⟩
  rw [update_pars_tau] at h
  have hval : (update_ftau pQ.F pQ.tau dQ (postGOf EQ dQ pQ) true).2 = [3/8] := by
    norm_num [update_ftau, ftauStep, catG, catGH, maskSum3, sum3, sfsMask,
      postGOf, EQ, dQ, pQ, tauFormula, List.range_succ]
  rw [hval] at h
  cases hf : O.update_ftau
  · rw [if_neg (by simp [hf])] at h
    norm_num [pQ] at h
  · rw [if_pos hf] at h
    cases hF : O.update_F <;> rw [hF] at h
    · rw [show update_ftau_numeric EQ pQ.F pQ.tau dQ (postGOf EQ dQ pQ) false
          = none from rfl] at h
      exact absurd h (by simp)
    · have hnum : update_ftau_numeric EQ pQ.F pQ.tau dQ (postGOf EQ dQ pQ) true =
          some ([8/10], [9/10]) := by
        norm_num [update_ftau_numeric, EQ, dQ, pQ, postGOf, List.range_succ, eps10]
      rw [hnum] at h
      norm_num at h

/-- C4 amended: `update_pars` is hard-wired to the numerically-optimized SFS
update: whenever the SFS update is enabled it invokes `update_ftau_numeric`
(raising when `update_F` is false), for every configuration; the
closed-form `update_ftau` is present in the module but selected by no
configuration. -/
theorem C4_amended (E : EmissionModel α) (d : SlugData α) (O : Controller α)
    (p : SlugPars α) (hO : O.update_ftau = true) :
    (update_pars E d O p).map SlugPars.tau =
      (update_ftau_numeric E p.F p.tau d (postGOf E d p) O.update_F).map Prod.snd ∧
    (update_pars E d O p).map SlugPars.F =
      (update_ftau_numeric E p.F p.tau d (postGOf E d p) O.update_F).map Prod.fst := by
  constructor
  · rw [update_pars_tau, hO, if_pos rfl]
  · rw [update_pars_F, hO, if_pos rfl]

/-- Witness for C4 amended, at a concrete configuration with the SFS update
enabled. -/
theorem C4_amended_witness :
    (update_pars EQ dQ { OQ with update_ftau := true } pQ).map SlugPars.tau =
      (update_ftau_numeric EQ pQ.F pQ.tau dQ (postGOf EQ dQ pQ)
        (Controller.update_F { OQ with update_ftau := true })).map Prod.snd ∧
    (update_pars EQ dQ { OQ with update_ftau := true } pQ).map SlugPars.F =
      (update_ftau_numeric EQ pQ.F pQ.tau dQ (postGOf EQ dQ pQ)
        (Controller.update_F { OQ with update_ftau := true })).map Prod.fst :=
  C4_amended EQ dQ { OQ with update_ftau := true } pQ rfl

/-! Claim C9. -/

theorem update_pars_EQ_eval (O : Controller ℚ) (hftau : O.update_ftau = false)
    (hcont : O.update_cont = true) (heb : O.update_eb = false)
    (hll : O.do_ll = true) : update_pars EQ dQ O pQ = some pQ2 := by
  unfold update_pars
  rw [hftau, hcont, heb, hll]
  norm_num [EQ, dQ, pQ, pQ2, update_c, rgMean, rgGroup, List.range_succ]

theorem emLoop_copy_const (E : EmissionModel α) (d : SlugData α)
    (O : Controller α) (hO : O.copy_pars = true) (n : ℕ) (p : SlugPars α) :
    emLoop E d O n p = none ∨ emLoop E d O n p = some p := by
  induction n with
  | zero => right; rfl
  | succ m ih =>
    unfold emLoop
    cases h : update_pars E d O p
    · left; rfl
    · rw [hO]
      simp only [if_true]
      split
      · right; rfl
      · exact ih

/-- C9 counterexample: with this dataset and emission model one EM step
moves `cont` from `0` to `1`, so `em` with `copy_pars = false` returns the
advanced parameters while `em` with `copy_pars = true` returns the initial
ones — the two modes are observably inequivalent. -/
theorem C9_cex :
    em EQ dQ { OQ with copy_pars := true } pQ ≠
      em EQ dQ { OQ with copy_pars := false } pQ := by
  have e1 : em EQ dQ { OQ with copy_pars := true } pQ = some pQ := by
    show emLoop EQ dQ { OQ with copy_pars := true } (Nat.succ 0) pQ = some pQ
    simp only [emLoop]
    rw [update_pars_EQ_eval { OQ with copy_pars := true } rfl rfl rfl rfl]
    norm_num [SlugPars.delta_ll, pQ, OQ]
  have e2 : em EQ dQ { OQ with copy_pars := false } pQ = some pQ2 := by
    show emLoop EQ dQ { OQ with copy_pars := false } (Nat.succ 0) pQ = some pQ2
    simp only [emLoop]
    rw [update_pars_EQ_eval { OQ with copy_pars := false } rfl rfl rfl rfl]
    norm_num [SlugPars.delta_ll, pQ, pQ2, OQ]
  rw [e1, e2]
  intro h
  have h2 := congrArg SlugPars.cont (Option.some.inj h)
  simp [pQ, pQ2] at h2

/-- C9 amended: `em` discards the value returned by `update_pars`, so with
`copy_pars = true` the caller-visible parameters never advance: `em`
returns the initial parameter vector unchanged (or propagates an
exception).  The two mutation modes are therefore not equivalent; `em`
advances the estimate only through in-place mutation
(`copy_pars = false`). -/
theorem C9_amended (E : EmissionModel α) (d : SlugData α) (O : Controller α)
    (p : SlugPars α) (hO : O.copy_pars = true) :
    em E d O p = none ∨ em E d O p = some p :=
  emLoop_copy_const E d O hO O.n_iter p

/-- Witness for C9 amended, at the concrete scenario. -/
theorem C9_amended_witness :
    em EQ dQ { OQ with copy_pars := true } pQ = none ∨
      em EQ dQ { OQ with copy_pars := true } pQ = some pQ :=
  C9_amended EQ dQ { OQ with copy_pars := true } pQ rfl

/-! Claim C10. -/

/-- C10: `squarem` unconditionally sets `controller.copy_pars = True` before
its first iteration (em.py line 244), overwriting whatever value the caller
configured; the mutation persists on the caller's controller object after
`squarem` returns (the model returns the post-call controller as the second
component, and nothing later writes the controller again). -/
theorem C10_copy_pars_mutation (E : EmissionModel ℝ) (d : SlugData ℝ)
    (O : Controller ℝ) (pars0 : SlugPars ℝ) :
    (squarem E d O pars0).2 = { O with copy_pars := true } := rfl

/-! Claim C3. -/

/-- C3 counterexample: on rejection with the step size at the bound, the
code relaxes the bound to `np.maximum(controller.squarem_max,
max_step / squarem_mstep)` (em.py line 294) — floored at the configured
`squarem_max`, not at the configured minimum `squarem_min`: here the next
bound is `4`, not `max(squarem_min, 4/2) = 2` as the claim's reading
"divided by the shrink factor but never below the configured minimum"
predicts. -/
theorem C3_cex :
    (sqAcceptReject OQ pQ2 pQ 4 4).maxStep = 4 ∧
    (sqAcceptReject OQ pQ2 pQ 4 4).maxStep ≠
      max OQ.squarem_min (4 / OQ.squarem_mstep) := by
  constructor <;> norm_num [sqAcceptReject, OQ, pQ, pQ2]

/-- C3 amended: in every SQUAREM outer iteration reaching the accept/reject
point: if `pars_sq.ll ≤ pars2.ll` the extrapolation is rejected and the
iteration continues from `pars2`; if additionally the step size had hit the
maximum bound, the bound becomes `max(squarem_max, max_step/squarem_mstep)`
— divided by the shrink factor but floored at the configured `squarem_max`
(hence never below `squarem_min` whenever `squarem_min ≤ squarem_max`) —
and is unchanged otherwise.  If `pars_sq.ll > pars2.ll` the candidate is
accepted and, exactly when the step size equalled the bound, the bound is
multiplied by `squarem_mstep`. -/
theorem C3_accept_reject (O : Controller α) (pars2 pars_sq : SlugPars α)
    (σ maxStep : α) :
    (pars_sq.ll ≤ pars2.ll →
      (sqAcceptReject O pars2 pars_sq σ maxStep).pars = pars2 ∧
      (maxStep ≤ σ →
        (sqAcceptReject O pars2 pars_sq σ maxStep).maxStep =
          max O.squarem_max (maxStep / O.squarem_mstep) ∧
        (O.squarem_min ≤ O.squarem_max →
          O.squarem_min ≤ (sqAcceptReject O pars2 pars_sq σ maxStep).maxStep)) ∧
      (¬ maxStep ≤ σ →
        (sqAcceptReject O pars2 pars_sq σ maxStep).maxStep = maxStep)) ∧
    (pars2.ll < pars_sq.ll →
      (sqAcceptReject O pars2 pars_sq σ maxStep).pars = pars_sq ∧
      (σ = maxStep →
        (sqAcceptReject O pars2 pars_sq σ maxStep).maxStep =
          maxStep * O.squarem_mstep) ∧
      (σ ≠ maxStep →
        (sqAcceptReject O pars2 pars_sq σ maxStep).maxStep = maxStep)) := by
  constructor
  · intro hle
    unfold sqAcceptReject
    rw [if_pos hle]
    refine ⟨rfl, fun hσ => ?_, fun hσ => ?_⟩
    · rw [if_pos hσ]
      exact ⟨rfl, fun hmm => le_trans hmm (le_max_left _ _)⟩
    · rw [if_neg hσ]
  · intro hlt
    unfold sqAcceptReject
    rw [if_neg (not_le.mpr hlt)]
    exact ⟨rfl, fun hσ => by rw [if_pos hσ], fun hσ => by rw [if_neg hσ]⟩

/-- Witness for C3 amended: a concrete acceptance with the step size at the
bound, growing the bound by the shrink factor. -/
theorem C3_accept_reject_witness :
    (sqAcceptReject OQ pQ pQ2 4 4).pars = pQ2 ∧
    (sqAcceptReject OQ pQ pQ2 4 4).maxStep = 4 * OQ.squarem_mstep := by
  have h := (C3_accept_reject OQ pQ pQ2 4 4).2 (by norm_num [pQ, pQ2])
  exact ⟨h.1, h.2.1 rfl⟩

/-! Evaluation of the SQUAREM scenario over `ℝ`. -/

theorem upd_p0R : update_pars ER dR OscT p0R = some p1R := by
  unfold update_pars
  rw [show OscT.update_ftau = false from rfl, show OscT.update_cont = true from rfl,
    show OscT.update_eb = false from rfl, show OscT.do_ll = true from rfl]
  norm_num [ER, dR, p0R, p1R, update_c, rgMean, rgGroup, List.range_succ]

theorem upd_p1R : update_pars ER dR OscT p1R = some p2R := by
  unfold update_pars
  rw [show OscT.update_ftau = false from rfl, show OscT.update_cont = true from rfl,
    show OscT.update_eb = false from rfl, show OscT.do_ll = true from rfl]
  norm_num [ER, dR, p1R, p2R, update_c, rgMean, rgGroup, List.range_succ]

theorem upd_psq0 : update_pars ER dR OscT psq0 = some psqR := by
  unfold update_pars
  rw [show OscT.update_ftau = false from rfl, show OscT.update_cont = true from rfl,
    show OscT.update_eb = false from rfl, show OscT.do_ll = true from rfl]
  norm_num [ER, dR, psq0, psqR, update_c, rgMean, rgGroup, List.range_succ]

theorem scen_dp1 : vsub p1R.flat p0R.flat = [some (1 / 100), some 0, some 0] := by
  norm_num [vsub, SlugPars.flat, p0R, p1R]

theorem scen_dp2 : vsub p2R.flat p1R.flat = [some (1 / 100), some 0, some 0] := by
  norm_num [vsub, SlugPars.flat, p1R, p2R]

theorem scen_dp3 :
    vsub (vsub p2R.flat p1R.flat) (vsub p1R.flat p0R.flat) =
      [some 0, some 0, some 0] := by
  rw [scen_dp1, scen_dp2]
  norm_num [vsub]

theorem scen_norm_dp1 : norm (vsub p1R.flat p0R.flat) = 1 / 100 := by
  rw [scen_dp1]
  unfold norm nansumSq
  rw [show ((([some ((1:ℝ) / 100), some 0, some 0]).map
      (fun o => match o with | some x => x ^ 2 | none => 0)).sum) = (1 / 100 : ℝ) ^ 2 by
    norm_num]
  exact Real.sqrt_sq (by norm_num)

theorem scen_norm_dp2 : norm (vsub p2R.flat p1R.flat) = 1 / 100 := by
  rw [scen_dp2]
  unfold norm nansumSq
  rw [show ((([some ((1:ℝ) / 100), some 0, some 0]).map
      (fun o => match o with | some x => x ^ 2 | none => 0)).sum) = (1 / 100 : ℝ) ^ 2 by
    norm_num]
  exact Real.sqrt_sq (by norm_num)

theorem scen_norm_dp3 :
    norm (vsub (vsub p2R.flat p1R.flat) (vsub p1R.flat p0R.flat)) = 0 := by
  rw [scen_dp3]
  unfold norm nansumSq
  rw [show ((([some (0:ℝ), some 0, some 0]).map
      (fun o => match o with | some x => x ^ 2 | none => 0)).sum) = (0:ℝ) by norm_num]
  exact Real.sqrt_zero

theorem scen_cand :
    SlugPars.setFlat p2R (stabilize (extrapolate p0R.flat
      (vsub p1R.flat p0R.flat)
      (vsub (vsub p2R.flat p1R.flat) (vsub p1R.flat p0R.flat)) 4)) = psq0 := by
  rw [scen_dp3, scen_dp1]
  norm_num [SlugPars.setFlat, SlugPars.flat, stabilize, extrapolate, p0R, p2R,
    psq0, eps10]

theorem scen_finish :
    sqFinish ER dR OscT { pars := p0R, maxStep := 4 } p2R
      (vsub p1R.flat p0R.flat)
      (vsub (vsub p2R.flat p1R.flat) (vsub p1R.flat p0R.flat)) 4 =
      SqOut.next { pars := psqR, maxStep := 8 } := by
  simp only [sqFinish, scen_cand, upd_psq0]
  unfold sqAcceptReject
  rw [if_neg (by norm_num [psqR, p2R]), if_pos rfl]
  norm_num [OscT, OscR]

theorem scen_step :
    squaremStep ER dR OscT { pars := p0R, maxStep := 4 } =
      SqOut.next { pars := psqR, maxStep := 8 } := by
  simp only [squaremStep, upd_p0R, upd_p1R]
  rw [if_neg (by rw [scen_norm_dp1]; norm_num [p1R, OscT, OscR])]
  rw [if_neg (by rw [scen_norm_dp2]; norm_num [p1R, p2R, OscT, OscR])]
  rw [if_pos scen_norm_dp3]
  rw [if_neg (by rw [scen_norm_dp1]; norm_num)]
  exact scen_finish

/-! Claim C1. -/

theorem sqFinish_next_ll (E : EmissionModel ℝ) (d : SlugData ℝ) (O : Controller ℝ)
    (s : SqState ℝ) (pars2 : SlugPars ℝ) (dp1 dp3 : List (Option ℝ)) (σ : ℝ)
    (s2 : SqState ℝ) (h : sqFinish E d O s pars2 dp1 dp3 σ = SqOut.next s2) :
    pars2.ll ≤ s2.pars.ll := by
  simp only [sqFinish] at h
  split at h
  · exact absurd h (by simp)
  · rename_i psq hup
    injection h with h2
    subst h2
    unfold sqAcceptReject
    split
    · exact le_refl _
    · rename_i hgt
      push_neg at hgt
      exact hgt.le

/-- C1: across successive `squarem` outer iterations the log-likelihood of
the accepted current point never decreases: whenever an outer iteration
completes (no stopping check fired) with accepted state `s2` — `pars2` on
rejection, `pars_sq` on acceptance — then `s2`'s `ll` is at least the `ll`
of the previously accepted point, for every dataset, emission model and
controller whose `ll_tol` is nonnegative (spec §7 rules out negative
tolerances as a `ConfigurationError`). -/
theorem C1_ll_monotone (E : EmissionModel ℝ) (d : SlugData ℝ) (O : Controller ℝ)
    (s s2 : SqState ℝ) (h0 : 0 ≤ O.ll_tol)
    (h : squaremStep E d O s = SqOut.next s2) : s.pars.ll ≤ s2.pars.ll := by
  simp only [squaremStep] at h
  split at h
  · exact absurd h (by simp)
  · rename_i pars1 h1
    split at h
    · exact absurd h (by simp)
    · rename_i hc1
      split at h
      · exact absurd h (by simp)
      · rename_i pars2 h2
        split at h
        · exact absurd h (by simp)
        · rename_i hc2
          have key : s.pars.ll ≤ pars2.ll := by
            cases hll : O.do_ll
            · have e1 := ((update_pars_ll_fields E d O s.pars pars1 h1).2 hll).1
              have e2 := ((update_pars_ll_fields E d O pars1 pars2 h2).2 hll).1
              exact le_of_eq (by rw [e2, e1])
            · have e1 := (update_pars_ll_fields E d O s.pars pars1 h1).1 hll
              push_neg at hc1 hc2
              have g1 := hc1.2
              have g2 := hc2.2
              rw [e1] at g1
              linarith
          split at h
          · split at h
            · exact absurd h (by simp)
            · exact le_trans key (sqFinish_next_ll E d O s pars2 _ _ _ s2 h)
          · exact le_trans key (sqFinish_next_ll E d O s pars2 _ _ _ s2 h)

/-- Witness for C1 at the concrete scenario iteration (an acceptance with
`ll` rising from `0` to `9/100`). -/
theorem C1_ll_monotone_witness :
    (0:ℝ) ≤ OscT.ll_tol ∧
      ({ pars := p0R, maxStep := 4 } : SqState ℝ).pars.ll ≤
        ({ pars := psqR, maxStep := 8 } : SqState ℝ).pars.ll :=
  ⟨by norm_num [OscT, OscR],
   C1_ll_monotone ER dR OscT _ _ (by norm_num [OscT, OscR]) scen_step⟩

/-! Claim C2. -/

/-- C2 counterexample: a concrete run in which neither stopping check fires
and `Δp3` is the zero vector, yet `squarem` does NOT treat the step as
converged and does not return `p2`: the IEEE step size `‖Δp1‖/0 = +∞` is
clipped to `max_step` and the iteration builds, re-evaluates and (here)
accepts the extrapolated candidate, which `squarem` then returns; no
division-by-zero error is raised, but the returned point differs from
`pars2`. -/
theorem C2_cex :
    update_pars ER dR OscT p0R = some p1R ∧
    update_pars ER dR OscT p1R = some p2R ∧
    vsub (vsub p2R.flat p1R.flat) (vsub p1R.flat p0R.flat) =
      [some 0, some 0, some 0] ∧
    (squarem ER dR OscR p0R).1 = some psqR ∧
    psqR ≠ p2R := by
  refine ⟨upd_p0R, upd_p1R, scen_dp3, ?_, ?_⟩
  · show squaremGo ER dR OscT (Nat.succ 0) { pars := p0R, maxStep := 4 } = some psqR
    simp only [squaremGo, scen_step]
  · intro h
    have h2 := congrArg SlugPars.ll h
    norm_num [psqR, p2R] at h2

/-- C2 amended: in a SQUAREM outer iteration in which neither stopping
check fires and `‖Δp3‖ = 0` with `‖Δp1‖ ≠ 0`, `squarem` does not return
`p2`: the IEEE division gives step size `+∞`, `np.clip` reduces it to the
current `max_step`, and the iteration proceeds to build, re-evaluate and
accept or reject the extrapolated candidate with `step_size = max_step`
(no exception is raised by the division). -/
theorem C2_amended (E : EmissionModel ℝ) (d : SlugData ℝ) (O : Controller ℝ)
    (s : SqState ℝ) (pars1 pars2 : SlugPars ℝ)
    (h1 : update_pars E d O s.pars = some pars1)
    (hc1 : ¬(norm (vsub pars1.flat s.pars.flat) < O.param_tol ∨
      pars1.ll - pars1.prev_ll < O.ll_tol))
    (h2 : update_pars E d O pars1 = some pars2)
    (hc2 : ¬(norm (vsub pars2.flat pars1.flat) < O.param_tol ∨
      pars2.ll - pars1.ll < O.ll_tol))
    (h3 : norm (vsub (vsub pars2.flat pars1.flat) (vsub pars1.flat s.pars.flat)) = 0)
    (h4 : norm (vsub pars1.flat s.pars.flat) ≠ 0) :
    squaremStep E d O s =
      sqFinish E d O s pars2 (vsub pars1.flat s.pars.flat)
        (vsub (vsub pars2.flat pars1.flat) (vsub pars1.flat s.pars.flat))
        s.maxStep := by
  simp only [squaremStep, h1, h2]
  rw [if_neg hc1, if_neg hc2, if_pos h3, if_neg h4]

/-- Witness for C2 amended, at the concrete scenario. -/
theorem C2_amended_witness :
    squaremStep ER dR OscT { pars := p0R, maxStep := 4 } =
      sqFinish ER dR OscT { pars := p0R, maxStep := 4 } p2R
        (vsub p1R.flat p0R.flat)
        (vsub (vsub p2R.flat p1R.flat) (vsub p1R.flat p0R.flat)) 4 :=
  C2_amended ER dR OscT { pars := p0R, maxStep := 4 } p1R p2R upd_p0R
    (by rw [scen_norm_dp1]; norm_num [p1R, OscT, OscR]) upd_p1R
    (by rw [scen_norm_dp2]; norm_num [p1R, p2R, OscT, OscR])
    scen_norm_dp3
    (by rw [scen_norm_dp1]; norm_num)

end Admixfrog
